import Mathlib

/-!
Shallow embedding of the agent-based epidemic simulation kernel
(`population.py` and `virus_util.py`).

The population is a dense table, one row per individual with 16 numeric
attributes (NumPy array of shape `size × 16`).  Machine floats are modelled
as exact rationals; nothing proved here depends on floating-point rounding.
A row is a `List ℚ` and the table a list of rows.  NumPy's column
assignment (including its broadcasting of length-1 data and its shape error
on any other mismatched length) is modelled by `npSetColumn`, which returns
`none` exactly when NumPy raises.  The stream of uniform random draws
consumed by `Virus.infect` is an explicit function `ℕ → ℚ`.
-/

namespace VirusSim

/-- A row of the population table: the 16 positional attributes of one
individual (id, age, x, y, x_dir, y_dir, speed, active, at_destination,
current_state, wander_x, wander_y, g_value, susceptibility, mortality_rate,
mask_effectiveness). -/
abbrev Row : Type := List ℚ

/-- The population table `self.persons`: one row per individual. -/
abbrev Table : Type := List Row

/-- Read cell `persons[r][c]`; out-of-range reads default to `0` (the claims
only exercise in-range accesses, guarded by well-formedness hypotheses). -/
def getCell (t : Table) (r c : Nat) : ℚ :=
  (t.getD r []).getD c 0

/-- Write cell `persons[r][c] = v` in place; out of range it is a no-op. -/
def setCell (t : Table) (r c : Nat) (v : ℚ) : Table :=
  t.set r ((t.getD r []).set c v)

/-- Python `int()` applied to a float scalar: truncation toward zero. -/
def pyInt (q : ℚ) : ℤ :=
  q.num.tdiv q.den

/-- Resolution of the Python row index `persons[int(q)]`: truncation toward
zero, with Python's negative indices counting from the end. -/
def pyRow (t : Table) (q : ℚ) : Nat :=
  if pyInt q < 0 then (pyInt q + t.length).toNat else (pyInt q).toNat

/-- NumPy column assignment `persons[:, c] = data`.  Data of exactly matching
length is assigned elementwise; length-1 data is broadcast to every row; any
other length raises a broadcast (shape) error, modelled as `none`. -/
def npSetColumn (t : Table) (c : Nat) (d : List ℚ) : Option Table :=
  if d.length = t.length then
    some (List.zipWith (fun r v => r.set c v) t d)
  else if d.length = 1 then
    some (t.map fun r => r.set c (d.getD 0 0))
  else
    none

/-- `Population.__init__(size)`: `np.zeros((size, 16))`. -/
def zeroPopulation (size : Nat) : Table :=
  List.replicate size (List.replicate 16 0)

/-- `Population.set_age`: `self.persons[:,1] = data`. -/
def set_age (t : Table) (d : List ℚ) : Option Table := npSetColumn t 1 d

/-- `Population.set_x_axis`: `self.persons[:,2] = data`. -/
def set_x_axis (t : Table) (d : List ℚ) : Option Table := npSetColumn t 2 d

/-- `Population.set_current_state`: `self.persons[:,8] = data`. -/
def set_current_state (t : Table) (d : List ℚ) : Option Table := npSetColumn t 8 d

/-- `Population.set_y_axis`: `self.persons[:,3] = data`. -/
def set_y_axis (t : Table) (d : List ℚ) : Option Table := npSetColumn t 3 d

/-- `Population.set_g_value`: `self.persons[:,12] = data`. -/
def set_g_value (t : Table) (d : List ℚ) : Option Table := npSetColumn t 12 d

/-- `Population.set_speed`: `self.persons[:,6] = data`. -/
def set_speed (t : Table) (d : List ℚ) : Option Table := npSetColumn t 6 d

/-- `Population.set_at_destination`: `self.persons[:,8] = data`. -/
def set_at_destination (t : Table) (d : List ℚ) : Option Table := npSetColumn t 8 d

/-- `Population.set_active`: `self.persons[:,7] = data`. -/
def set_active (t : Table) (d : List ℚ) : Option Table := npSetColumn t 7 d

/-- `Population.set_x_dir`: `self.persons[:,4] = data`. -/
def set_x_dir (t : Table) (d : List ℚ) : Option Table := npSetColumn t 4 d

/-- `Population.set_y_dir`: `self.persons[:,5] = data`. -/
def set_y_dir (t : Table) (d : List ℚ) : Option Table := npSetColumn t 5 d

/-- `Population.set_mask_effectiveness`: `self.persons[:,15] = data`. -/
def set_mask_effectiveness (t : Table) (d : List ℚ) : Option Table := npSetColumn t 15 d

/-- `Population.get_x_axis`: returns `self.persons[:,2]`. -/
def get_x_axis (t : Table) : List ℚ := t.map fun r => r.getD 2 0

/-- `Population.get_y_axis`: returns `self.persons[:,3]`. -/
def get_y_axis (t : Table) : List ℚ := t.map fun r => r.getD 3 0

/-- `Population.get_current_state`: returns `self.persons[:,9]`. -/
def get_current_state (t : Table) : List ℚ := t.map fun r => r.getD 9 0

/-- `Population.get_person`: returns the whole table. -/
def get_person (t : Table) : Table := t

/-- `Population.get_all_infected`: `self.persons[self.persons[:,9] == 1]`. -/
def get_all_infected (t : Table) : Table :=
  t.filter fun r => decide (r.getD 9 0 = 1)

/-- `Population.get_all_healthy`: `self.persons[self.persons[:,9] == 0]`. -/
def get_all_healthy (t : Table) : Table :=
  t.filter fun r => decide (r.getD 9 0 = 0)

/-- `Population.get_currently_active_info`: returns `self.persons[:,7]`. -/
def get_currently_active_info (t : Table) : List ℚ := t.map fun r => r.getD 7 0

/-- The id data `list(range(low, high))` assigned by `initialize_id`. -/
def idRange (low high : ℤ) : List ℚ :=
  (List.range (high - low).toNat).map fun k : ℕ => ((low + (k : ℤ) : ℤ) : ℚ)

/-- `Population.initialize_id(low, high)`: assigns `list(range(low, high))`
to column 0. -/
def initialize_id (t : Table) (low high : ℤ) : Option Table :=
  npSetColumn t 0 (idRange low high)

/-- The per-sample transformation of `initialize_g_value`: a negative normal
sample is clamped to `0.0` (`g_value[g_value<0] = 0`), then the sample is
truncated to an integer (`astype(int)`, truncation toward zero). -/
def clampTruncate (g : ℚ) : ℚ :=
  ((pyInt (if g < 0 then 0 else g) : ℤ) : ℚ)

/-- `Population.initialize_g_value`: the normal samples (given here as the
explicit list `samples`) are clamped at zero, truncated to integers, and
stored through the g_value setter. -/
def initialize_g_value (t : Table) (samples : List ℚ) : Option Table :=
  set_g_value t (samples.map clampTruncate)

/-- `Population.initialize_susceptibility`: for every individual stores
`((100 - mask_effectiveness) / 100) * 0.1` into column 13, reading
mask_effectiveness from column 15. -/
def initialize_susceptibility (t : Table) : Table :=
  t.map fun r => r.set 13 ((100 - r.getD 15 0) / 100 * 0.1)

/-!
The column registry module (`person_properties_util`, imported by the virus
module as `index`) is not among the available source files; its four entries
used by the virus module are modelled from the spec's data-model table.
-/

namespace index

/-- Modelled from the spec: registry entry for the current x position
(column 2 of the data-model table). -/
abbrev x_axis : Nat := 2

/-- Modelled from the spec: registry entry for the current y position
(column 3 of the data-model table). -/
abbrev y_axis : Nat := 3

/-- Modelled from the spec: registry entry for the authoritative (read-path)
disease state (column 9 of the data-model table). -/
abbrev current_state : Nat := 9

/-- Modelled from the spec: registry entry for the remaining
secondary-infection budget (column 12 of the data-model table). -/
abbrev g_value : Nat := 12

end index

/-- `Virus.find_nearby(persons, x_bounds, y_bounds)`: the id column
(`persons[:,0]`) of every row whose x coordinate lies strictly between the x
bounds, whose y coordinate lies strictly between the y bounds, and whose
disease state (column `index.current_state`) equals 0. -/
def find_nearby (t : Table) (x_bounds y_bounds : ℚ × ℚ) : List ℚ :=
  (t.filter fun r =>
      decide (x_bounds.1 < r.getD index.x_axis 0) &&
      decide (r.getD index.x_axis 0 < x_bounds.2) &&
      decide (y_bounds.1 < r.getD index.y_axis 0) &&
      decide (r.getD index.y_axis 0 < y_bounds.2) &&
      decide (r.getD index.current_state 0 = 0)).map fun r => r.getD 0 0

/-- The ids `idx[0]` of the rows returned by `get_all_infected` at the start
of a call to `infect`: a snapshot taken before any mutation. -/
def infectedIds (t : Table) : List ℚ :=
  (t.filter fun r => decide (r.getD 9 0 = 1)).map fun r => r.getD 0 0

/-- The body of the candidate loop of `Virus.infect`, specialised to one
candidate: if the uniform draw is `< 0.06` and the infector's g_value is
`> 0`, mark the candidate row's column 9 (a raw literal in the source) with
`1` and decrement the infector's g_value by 1; otherwise do nothing. -/
def infectStep (t : Table) (infRow candRow : Nat) (chance : ℚ) : Table :=
  if chance < 0.06 ∧ 0 < getCell t infRow index.g_value then
    setCell (setCell t candRow 9 1) infRow index.g_value
      (getCell (setCell t candRow 9 1) infRow index.g_value - 1)
  else
    t

/-- The inner loop of `Virus.infect` over the candidates returned by
`find_nearby`: one uniform draw per candidate (`draws k`, `draws (k+1)`, …).
Returns the mutated table, the next draw index, and the number of
candidates actually infected by this infector. -/
def infectInner (infRow : Nat) (draws : ℕ → ℚ) :
    List ℚ → Table → ℕ → Table × ℕ × ℕ
  | [], t, k => (t, k, 0)
  | c :: cs, t, k =>
    if draws k < 0.06 ∧ 0 < getCell t infRow index.g_value then
      ((infectInner infRow draws cs (infectStep t infRow (pyRow t c) (draws k)) (k + 1)).1,
        (infectInner infRow draws cs (infectStep t infRow (pyRow t c) (draws k)) (k + 1)).2.1,
        (infectInner infRow draws cs (infectStep t infRow (pyRow t c) (draws k)) (k + 1)).2.2 + 1)
    else
      infectInner infRow draws cs t (k + 1)

/-- One entry per infector processed by a call to `infect`: the id `idx[0]`
taken from the snapshot, the live table at the moment its `find_nearby`
query ran, the candidate ids returned, and how many of them it infected. -/
structure Event where
  infId : ℚ
  state : Table
  cands : List ℚ
  succs : ℕ

/-- The square neighbourhood of the infector addressed by row `i`:
`hw` models `math.sqrt(self.infection_range)`, the half-width of the box
(taken as a parameter: its exact real value is irrelevant to the claims,
which hold for every half-width). -/
def infectBounds (t : Table) (hw : ℚ) (i : Nat) : (ℚ × ℚ) × (ℚ × ℚ) :=
  ((getCell t i index.x_axis - hw, getCell t i index.x_axis + hw),
   (getCell t i index.y_axis - hw, getCell t i index.y_axis + hw))

/-- The candidates one infector id `q` collects: the bounding box is read
from the live table at row `int(q)`, and `find_nearby` queries the live
table. -/
def infectCands (t : Table) (hw : ℚ) (q : ℚ) : List ℚ :=
  find_nearby t (infectBounds t hw (pyRow t q)).1 (infectBounds t hw (pyRow t q)).2

/-- One full iteration of the outer loop of `Virus.infect` for infector id
`q`: query the live table, then run the candidate loop. -/
def infectRound (hw : ℚ) (draws : ℕ → ℚ) (q : ℚ) (t : Table) (k : ℕ) : Table × ℕ × ℕ :=
  infectInner (pyRow t q) draws (infectCands t hw q) t k

/-- The outer loop of `Virus.infect` over the snapshot of infector ids. -/
def infectOuter (hw : ℚ) (draws : ℕ → ℚ) :
    List ℚ → Table → ℕ → Table × ℕ × List Event
  | [], t, k => (t, k, [])
  | q :: qs, t, k =>
    ((infectOuter hw draws qs (infectRound hw draws q t k).1
        (infectRound hw draws q t k).2.1).1,
      (infectOuter hw draws qs (infectRound hw draws q t k).1
        (infectRound hw draws q t k).2.1).2.1,
      ⟨q, t, infectCands t hw q, (infectRound hw draws q t k).2.2⟩ ::
        (infectOuter hw draws qs (infectRound hw draws q t k).1
          (infectRound hw draws q t k).2.1).2.2)

/-- `Virus.infect(population)`: the population table after one full call. -/
def infect (t : Table) (hw : ℚ) (draws : ℕ → ℚ) : Table :=
  (infectOuter hw draws (infectedIds t) t 0).1

/-- The per-infector trace of one call to `infect`. -/
def infectTrace (t : Table) (hw : ℚ) (draws : ℕ → ℚ) : List Event :=
  (infectOuter hw draws (infectedIds t) t 0).2.2

/-- Well-formedness of a population table: every row has the 16 columns
allocated by `Population.__init__`. -/
def WF (t : Table) : Prop := ∀ r ∈ t, r.length = 16

/-- Every individual's id (column 0) equals its row position, as
`initialize_id(0, N)` produces. -/
def PosIds (t : Table) : Prop :=
  ∀ k, k < t.length → getCell t k 0 = (k : ℚ)

/-- Column-9 infection marks are preserved from table `s` to table `s'`. -/
def Reach (s s' : Table) : Prop :=
  ∀ j, getCell s j 9 = 1 → getCell s' j 9 = 1

/-- Every g_value cell (column 12) holds a natural number. -/
def GNat (t : Table) : Prop :=
  ∀ r, ∃ n : ℕ, getCell t r 12 = (n : ℚ)

/-- Concrete two-individual table: row 0 is infected (column 9 = 1) with
g_value 1; row 1 is healthy. -/
def tC1w : Table :=
  [[0, 0, 0, 0, 0, 0, 0, 0, 0, 1, 0, 0, 1, 0, 0, 0],
   [1, 0, 0, 0, 0, 0, 0, 0, 0, 0, 0, 0, 0, 0, 0, 0]]

/-- Concrete two-individual table: row 0 is infected with the fractional
g_value 0.5 (as `set_g_value` accepts silently); row 1 is healthy at
position (0.1, 0.1), inside row 0's unit neighbourhood. -/
def tC5ce : Table :=
  [[0, 0, 0,   0,   0, 0, 0, 0, 0, 1, 0, 0, 0.5, 0, 0, 0],
   [1, 0, 0.1, 0.1, 0, 0, 0, 0, 0, 0, 0, 0, 0,   0, 0, 0]]

/-- Concrete two-individual table with ids equal to row positions: row 0 is
infected with g_value 1; row 1 is healthy at (0.1, 0.1). -/
def tC5w : Table :=
  [[0, 0, 0,   0,   0, 0, 0, 0, 0, 1, 0, 0, 1, 0, 0, 0],
   [1, 0, 0.1, 0.1, 0, 0, 0, 0, 0, 0, 0, 0, 0, 0, 0, 0]]

/-- Concrete two-individual table with ids equal to row positions: row 0
infected, row 1 healthy. -/
def tC6w : Table :=
  [[0, 0, 0, 0, 0, 0, 0, 0, 0, 1, 0, 0, 0, 0, 0, 0],
   [1, 0, 0, 0, 0, 0, 0, 0, 0, 0, 0, 0, 0, 0, 0, 0]]

/-- Concrete two-individual table: row 0 wears a 90%-effective mask
(column 15 = 90), row 1 no mask (column 15 = 0). -/
def tC8w : Table :=
  [[0, 0, 0, 0, 0, 0, 0, 0, 0, 0, 0, 0, 0, 0, 0, 90],
   [1, 0, 0, 0, 0, 0, 0, 0, 0, 0, 0, 0, 0, 0, 0, 0]]

/-! ### Helper lemmas about rows, cells and column assignment -/

lemma row_getD_set_self (r : Row) (c : Nat) (v : ℚ) (h : c < r.length) :
    (r.set c v).getD c 0 = v := by
  rw [List.getD_eq_getElem _ _ (show c < (r.set c v).length by simpa using h)]
  exact List.getElem_set_self _

lemma row_getD_set_ne (r : Row) (c c' : Nat) (v : ℚ) (h : c ≠ c') :
    (r.set c v).getD c' 0 = r.getD c' 0 := by
  rw [List.getD_eq_getElem?_getD, List.getD_eq_getElem?_getD, List.getElem?_set]
  simp [h]

lemma length_setCell (t : Table) (r c : Nat) (v : ℚ) :
    (setCell t r c v).length = t.length :=
  List.length_set t r _

lemma getRow_setCell (t : Table) (r c : Nat) (v : ℚ) (r' : Nat) :
    (setCell t r c v).getD r' [] =
      if r = r' ∧ r < t.length then (t.getD r []).set c v else t.getD r' [] := by
  unfold setCell
  rw [List.getD_eq_getElem?_getD, List.getElem?_set]
  by_cases h : r = r'
  · subst h
    by_cases hr : r < t.length
    · rw [if_pos rfl, if_pos hr, if_pos ⟨rfl, hr⟩, Option.getD_some]
    · rw [if_pos rfl, if_neg hr, if_neg (fun hc => hr hc.2), Option.getD_none,
        List.getD_eq_default _ _ (Nat.le_of_not_lt hr)]
  · rw [if_neg h, if_neg (fun hc => h hc.1), ← List.getD_eq_getElem?_getD]

lemma rowLen_setCell (t : Table) (r c : Nat) (v : ℚ) (r' : Nat) :
    ((setCell t r c v).getD r' []).length = (t.getD r' []).length := by
  rw [getRow_setCell]
  by_cases h : r = r' ∧ r < t.length
  · obtain ⟨rfl, hlt⟩ := h
    rw [if_pos ⟨rfl, hlt⟩, List.length_set]
  · rw [if_neg h]

lemma getCell_setCell_ne (t : Table) {r c r' c' : Nat} (v : ℚ)
    (h : r ≠ r' ∨ c ≠ c') : getCell (setCell t r c v) r' c' = getCell t r' c' := by
  unfold getCell
  rw [getRow_setCell]
  by_cases hrr : r = r' ∧ r < t.length
  · obtain ⟨rfl, hlt⟩ := hrr
    rw [if_pos ⟨rfl, hlt⟩]
    rcases h with h | h
    · exact absurd rfl h
    · exact row_getD_set_ne _ _ _ _ h
  · rw [if_neg hrr]

lemma getCell_setCell_self (t : Table) {r c : Nat} (v : ℚ)
    (hr : r < t.length) (hc : c < (t.getD r []).length) :
    getCell (setCell t r c v) r c = v := by
  unfold getCell
  rw [getRow_setCell, if_pos ⟨rfl, hr⟩, row_getD_set_self _ _ _ hc]

lemma getCell_setCell_or (t : Table) (r c : Nat) (v : ℚ) (r' c' : Nat) :
    getCell (setCell t r c v) r' c' = v ∨
      getCell (setCell t r c v) r' c' = getCell t r' c' := by
  by_cases h : r = r' ∧ c = c'
  · obtain ⟨rfl, rfl⟩ := h
    by_cases hr : r < t.length
    · by_cases hc : c < (t.getD r []).length
      · exact Or.inl (getCell_setCell_self t v hr hc)
      · right
        unfold getCell
        rw [getRow_setCell, if_pos ⟨rfl, hr⟩]
        rw [List.getD_eq_default _ _ (by simpa using Nat.le_of_not_lt hc),
          List.getD_eq_default _ _ (Nat.le_of_not_lt hc)]
    · right
      unfold getCell
      rw [getRow_setCell, if_neg (fun hx => hr hx.2)]
  · exact Or.inr (getCell_setCell_ne t v (by tauto))

lemma getRow_zipWith_col (c : Nat) :
    ∀ (t : Table) (d : List ℚ) (k : Nat), k < t.length → k < d.length →
      (List.zipWith (fun r v => r.set c v) t d).getD k [] = (t.getD k []).set c (d.getD k 0)
  | [], _, k, hk, _ => by simp at hk
  | _ :: _, [], _, _, hd => by simp at hd
  | r :: rs, v :: vs, 0, _, _ => by simp
  | r :: rs, v :: vs, (k+1), hk, hd => by
      simpa using getRow_zipWith_col c rs vs k (by simpa using hk) (by simpa using hd)

lemma length_zipWith_col (c : Nat) (t : Table) (d : List ℚ) (hlen : d.length = t.length) :
    (List.zipWith (fun r v => r.set c v) t d).length = t.length := by
  rw [List.length_zipWith, hlen, min_self]

lemma getCell_zipWith_col_ne (t : Table) (d : List ℚ) {c c' : Nat} (k : Nat)
    (hlen : d.length = t.length) (h : c' ≠ c) :
    getCell (List.zipWith (fun r v => r.set c v) t d) k c' = getCell t k c' := by
  unfold getCell
  by_cases hk : k < t.length
  · rw [getRow_zipWith_col c t d k hk (hlen ▸ hk), row_getD_set_ne _ _ _ _ (Ne.symm h)]
  · have h1 : (List.zipWith (fun r v => r.set c v) t d).getD k [] = ([] : Row) :=
      List.getD_eq_default _ _
        (by rw [length_zipWith_col c t d hlen]; exact Nat.le_of_not_lt hk)
    have h2 : t.getD k [] = ([] : Row) := List.getD_eq_default _ _ (Nat.le_of_not_lt hk)
    rw [h1, h2]

lemma getCell_zipWith_col_self (t : Table) (d : List ℚ) {c : Nat} (k : Nat)
    (hlen : d.length = t.length) (hk : k < t.length) (hc : c < (t.getD k []).length) :
    getCell (List.zipWith (fun r v => r.set c v) t d) k c = d.getD k 0 := by
  unfold getCell
  rw [getRow_zipWith_col c t d k hk (hlen ▸ hk), row_getD_set_self _ _ _ hc]

lemma getRow_map (f : Row → Row) (t : Table) (k : Nat) (hk : k < t.length) :
    (t.map f).getD k [] = f (t.getD k []) := by
  rw [List.getD_eq_getElem _ _ (by simpa using hk), List.getElem_map,
    List.getD_eq_getElem _ _ hk]

lemma mem_find_nearby (t : Table) (xb yb : ℚ × ℚ) (q : ℚ) :
    q ∈ find_nearby t xb yb ↔
      ∃ r ∈ t, (xb.1 < r.getD 2 0 ∧ r.getD 2 0 < xb.2 ∧
        yb.1 < r.getD 3 0 ∧ r.getD 3 0 < yb.2 ∧ r.getD 9 0 = 0) ∧ r.getD 0 0 = q := by
  simp only [find_nearby, index.x_axis, index.y_axis, index.current_state,
    List.mem_map, List.mem_filter, Bool.and_eq_true, decide_eq_true_eq]
  constructor
  · rintro ⟨r, ⟨hr, ⟨⟨⟨⟨h1, h2⟩, h3⟩, h4⟩, h5⟩⟩, rfl⟩
    exact ⟨r, hr, ⟨h1, h2, h3, h4, h5⟩, rfl⟩
  · rintro ⟨r, hr, ⟨h1, h2, h3, h4, h5⟩, rfl⟩
    exact ⟨r, ⟨hr, ⟨⟨⟨⟨h1, h2⟩, h3⟩, h4⟩, h5⟩⟩, rfl⟩

lemma mem_infectedIds (t : Table) (q : ℚ) :
    q ∈ infectedIds t ↔ ∃ r ∈ t, r.getD 9 0 = 1 ∧ r.getD 0 0 = q := by
  simp only [infectedIds, List.mem_map, List.mem_filter, decide_eq_true_eq]
  constructor
  · rintro ⟨r, ⟨hr, h1⟩, rfl⟩
    exact ⟨r, hr, h1, rfl⟩
  · rintro ⟨r, hr, h1, rfl⟩
    exact ⟨r, ⟨hr, h1⟩, rfl⟩

lemma pyInt_natCast (k : ℕ) : pyInt (k : ℚ) = k := by
  unfold pyInt
  rw [Rat.num_natCast, Rat.den_natCast]
  simp

lemma pyRow_natCast (t : Table) (k : ℕ) : pyRow t (k : ℚ) = k := by
  unfold pyRow
  rw [pyInt_natCast]
  simp

lemma pyRow_congr (t t' : Table) (q : ℚ) (h : t.length = t'.length) :
    pyRow t q = pyRow t' q := by
  unfold pyRow
  rw [h]

lemma pyInt_nonneg {q : ℚ} (h : 0 ≤ q) : 0 ≤ pyInt q :=
  Int.tdiv_nonneg (Rat.num_nonneg.mpr h) (Int.natCast_nonneg _)

lemma reach_refl (t : Table) : Reach t t := fun _ h => h

lemma reach_trans {s s' s'' : Table} (h : Reach s s') (h' : Reach s' s'') :
    Reach s s'' := fun j hj => h' j (h j hj)

lemma infectStep_pos (t : Table) (i c : Nat) (ch : ℚ)
    (h : ch < 0.06 ∧ 0 < getCell t i index.g_value) :
    infectStep t i c ch =
      setCell (setCell t c 9 1) i index.g_value
        (getCell (setCell t c 9 1) i index.g_value - 1) :=
  if_pos h

lemma infectStep_neg (t : Table) (i c : Nat) (ch : ℚ)
    (h : ¬(ch < 0.06 ∧ 0 < getCell t i index.g_value)) :
    infectStep t i c ch = t :=
  if_neg h

lemma getCell_mark_g (t : Table) (c i : Nat) :
    getCell (setCell t c 9 1) i 12 = getCell t i 12 :=
  getCell_setCell_ne t 1 (Or.inr (show (9 : ℕ) ≠ 12 by decide))

lemma getCell_setg_9 (t : Table) (i j : Nat) (v : ℚ) :
    getCell (setCell t i 12 v) j 9 = getCell t j 9 :=
  getCell_setCell_ne t v (Or.inr (show (12 : ℕ) ≠ 9 by decide))

lemma length_infectStep (t : Table) (i c : Nat) (ch : ℚ) :
    (infectStep t i c ch).length = t.length := by
  unfold infectStep
  split
  · rw [length_setCell, length_setCell]
  · rfl

lemma rowLen_infectStep (t : Table) (i c : Nat) (ch : ℚ) (r' : Nat) :
    ((infectStep t i c ch).getD r' []).length = (t.getD r' []).length := by
  unfold infectStep
  split
  · rw [rowLen_setCell, rowLen_setCell]
  · rfl

lemma getCell_infectStep_frame (t : Table) (i c : Nat) (ch : ℚ) {r' c' : Nat}
    (h9 : c' ≠ 9) (h12 : r' ≠ i ∨ c' ≠ 12) :
    getCell (infectStep t i c ch) r' c' = getCell t r' c' := by
  unfold infectStep
  split
  · rw [getCell_setCell_ne _ _ (by tauto), getCell_setCell_ne _ _ (Or.inr (Ne.symm h9))]
  · rfl

lemma reach_infectStep (t : Table) (i c : Nat) (ch : ℚ) :
    Reach t (infectStep t i c ch) := by
  intro j hj
  unfold infectStep
  split
  · rw [getCell_setg_9]
    rcases getCell_setCell_or t c 9 1 j 9 with h | h
    · rw [h]
    · rw [h]; exact hj
  · exact hj

lemma infectInner_length (i : Nat) (draws : ℕ → ℚ) (cs : List ℚ) :
    ∀ (t : Table) (k : ℕ), (infectInner i draws cs t k).1.length = t.length := by
  induction cs with
  | nil => intro t k; rfl
  | cons c cs ih =>
    intro t k
    simp only [infectInner]
    split
    · exact (ih _ _).trans (length_infectStep t i (pyRow t c) (draws k))
    · exact ih t (k + 1)

lemma infectInner_rowLen (i : Nat) (draws : ℕ → ℚ) (cs : List ℚ) :
    ∀ (t : Table) (k r' : ℕ),
      ((infectInner i draws cs t k).1.getD r' []).length = (t.getD r' []).length := by
  induction cs with
  | nil => intro t k r'; rfl
  | cons c cs ih =>
    intro t k r'
    simp only [infectInner]
    split
    · exact (ih _ _ _).trans (rowLen_infectStep t i (pyRow t c) (draws k) r')
    · exact ih t (k + 1) r'

lemma infectInner_frame (i : Nat) (draws : ℕ → ℚ) (cs : List ℚ) {r' c' : Nat}
    (h9 : c' ≠ 9) (h12 : r' ≠ i ∨ c' ≠ 12) :
    ∀ (t : Table) (k : ℕ),
      getCell (infectInner i draws cs t k).1 r' c' = getCell t r' c' := by
  induction cs with
  | nil => intro t k; rfl
  | cons c cs ih =>
    intro t k
    simp only [infectInner]
    split
    · exact (ih _ _).trans (getCell_infectStep_frame t i (pyRow t c) (draws k) h9 h12)
    · exact ih t (k + 1)

lemma infectInner_reach (i : Nat) (draws : ℕ → ℚ) (cs : List ℚ) :
    ∀ (t : Table) (k : ℕ), Reach t (infectInner i draws cs t k).1 := by
  induction cs with
  | nil => intro t k; exact reach_refl t
  | cons c cs ih =>
    intro t k
    simp only [infectInner]
    split
    · exact reach_trans (reach_infectStep t i (pyRow t c) (draws k)) (ih _ _)
    · exact ih t (k + 1)

lemma infectInner_count (i : Nat) (draws : ℕ → ℚ) (cs : List ℚ) :
    ∀ (t : Table) (k : ℕ) (n : ℕ), GNat t → i < t.length → 12 < (t.getD i []).length →
      getCell t i 12 = (n : ℚ) →
      GNat (infectInner i draws cs t k).1 ∧
        ∃ m : ℕ, (infectInner i draws cs t k).2.2 + m = n ∧
          getCell (infectInner i draws cs t k).1 i 12 = (m : ℚ) := by
  induction cs with
  | nil =>
    intro t k n hG hi hrow hn
    exact ⟨hG, n, Nat.zero_add n, hn⟩
  | cons c cs ih =>
    intro t k n hG hi hrow hn
    simp only [infectInner]
    by_cases hcond : draws k < 0.06 ∧ 0 < getCell t i index.g_value
    · rw [if_pos hcond]
      have hg : (0 : ℚ) < (n : ℚ) := by rw [← hn]; exact hcond.2
      have hn1 : 1 ≤ n := by exact_mod_cast Nat.one_le_iff_ne_zero.mpr (by
        intro h0
        rw [h0] at hg
        exact lt_irrefl (0 : ℚ) (by exact_mod_cast hg))
      have hmark : getCell (setCell t (pyRow t c) 9 1) i 12 = (n : ℚ) :=
        (getCell_mark_g t (pyRow t c) i).trans hn
      have hstep : getCell (infectStep t i (pyRow t c) (draws k)) i 12 = ((n - 1 : ℕ) : ℚ) := by
        rw [infectStep_pos t i (pyRow t c) (draws k) hcond]
        rw [getCell_setCell_self _ _ (by rw [length_setCell]; exact hi)
          (by rw [rowLen_setCell]; exact hrow)]
        rw [hmark, Nat.cast_sub hn1, Nat.cast_one]
      have hG2 : GNat (infectStep t i (pyRow t c) (draws k)) := by
        intro r
        by_cases hri : r = i
        · exact ⟨n - 1, hri ▸ hstep⟩
        · obtain ⟨nr, hnr⟩ := hG r
          exact ⟨nr, (getCell_infectStep_frame t i (pyRow t c) (draws k)
            (by omega) (Or.inl hri)).trans hnr⟩
      obtain ⟨hG', m, hm, hfin⟩ := ih (infectStep t i (pyRow t c) (draws k)) (k + 1) (n - 1)
        hG2 (by rw [length_infectStep]; exact hi) (by rw [rowLen_infectStep]; exact hrow) hstep
      refine ⟨hG', m, ?_, hfin⟩
      dsimp only
      omega
    · rw [if_neg hcond]
      exact ih t (k + 1) n hG hi hrow hn

lemma infectRound_length (hw : ℚ) (draws : ℕ → ℚ) (q : ℚ) (t : Table) (k : ℕ) :
    (infectRound hw draws q t k).1.length = t.length :=
  infectInner_length _ draws _ t k

lemma infectRound_rowLen (hw : ℚ) (draws : ℕ → ℚ) (q : ℚ) (t : Table) (k r' : ℕ) :
    ((infectRound hw draws q t k).1.getD r' []).length = (t.getD r' []).length :=
  infectInner_rowLen _ draws _ t k r'

lemma infectRound_reach (hw : ℚ) (draws : ℕ → ℚ) (q : ℚ) (t : Table) (k : ℕ) :
    Reach t (infectRound hw draws q t k).1 :=
  infectInner_reach _ draws _ t k

lemma infectRound_frame (hw : ℚ) (draws : ℕ → ℚ) (q : ℚ) (t : Table) (k : ℕ)
    {r' c' : Nat} (h9 : c' ≠ 9) (h12 : r' ≠ pyRow t q ∨ c' ≠ 12) :
    getCell (infectRound hw draws q t k).1 r' c' = getCell t r' c' :=
  infectInner_frame _ draws _ h9 h12 t k

lemma infectRound_count (hw : ℚ) (draws : ℕ → ℚ) (q : ℚ) (t : Table) (k : ℕ) (n : ℕ)
    (hG : GNat t) (hi : pyRow t q < t.length) (hrow : 12 < (t.getD (pyRow t q) []).length)
    (hn : getCell t (pyRow t q) 12 = (n : ℚ)) :
    GNat (infectRound hw draws q t k).1 ∧
      ∃ m : ℕ, (infectRound hw draws q t k).2.2 + m = n ∧
        getCell (infectRound hw draws q t k).1 (pyRow t q) 12 = (m : ℚ) :=
  infectInner_count _ draws _ t k n hG hi hrow hn

lemma infectOuter_length (hw : ℚ) (draws : ℕ → ℚ) (qs : List ℚ) :
    ∀ (t : Table) (k : ℕ), (infectOuter hw draws qs t k).1.length = t.length := by
  induction qs with
  | nil => intro t k; rfl
  | cons q qs ih =>
    intro t k
    exact (ih _ _).trans (infectInner_length _ draws _ t k)

lemma infectOuter_map_infId (hw : ℚ) (draws : ℕ → ℚ) (qs : List ℚ) :
    ∀ (t : Table) (k : ℕ), ((infectOuter hw draws qs t k).2.2).map Event.infId = qs := by
  induction qs with
  | nil => intro t k; rfl
  | cons q qs ih =>
    intro t k
    simp only [infectOuter, List.map_cons]
    rw [ih]

lemma infectOuter_trace (hw : ℚ) (draws : ℕ → ℚ) (qs : List ℚ) :
    ∀ (t : Table) (k : ℕ),
      Reach t (infectOuter hw draws qs t k).1 ∧
      (∀ e ∈ (infectOuter hw draws qs t k).2.2,
        (∃ xb yb, e.cands = find_nearby e.state xb yb) ∧
        Reach t e.state ∧ Reach e.state (infectOuter hw draws qs t k).1) ∧
      List.Pairwise (fun e e' => Reach e.state e'.state)
        (infectOuter hw draws qs t k).2.2 := by
  induction qs with
  | nil =>
    intro t k
    exact ⟨reach_refl t, fun e he => absurd he (List.not_mem_nil e), List.Pairwise.nil⟩
  | cons q qs ih =>
    intro t k
    have hR : Reach t (infectRound hw draws q t k).1 :=
      infectInner_reach _ draws _ t k
    obtain ⟨ih1, ih2, ih3⟩ := ih (infectRound hw draws q t k).1 (infectRound hw draws q t k).2.1
    refine ⟨reach_trans hR ih1, ?_, ?_⟩
    · intro e he
      rcases List.mem_cons.mp he with rfl | he'
      · exact ⟨⟨_, _, rfl⟩, reach_refl t, reach_trans hR ih1⟩
      · obtain ⟨hc, hr1, hr2⟩ := ih2 e he'
        exact ⟨hc, reach_trans hR hr1, hr2⟩
    · refine List.Pairwise.cons ?_ ih3
      intro e' he'
      exact reach_trans hR (ih2 e' he').2.1

lemma infectOuter_count (hw : ℚ) (draws : ℕ → ℚ) (qs : List ℚ) :
    ∀ (t : Table) (k : ℕ), GNat t →
      (∀ q ∈ qs, pyRow t q < t.length ∧ 12 < (t.getD (pyRow t q) []).length) →
      (qs.map fun q => pyRow t q).Nodup →
      GNat (infectOuter hw draws qs t k).1 ∧
        ∀ e ∈ (infectOuter hw draws qs t k).2.2,
          (e.succs : ℚ) ≤ getCell t (pyRow t e.infId) 12 := by
  induction qs with
  | nil =>
    intro t k hG _ _
    exact ⟨hG, fun e he => absurd he (List.not_mem_nil e)⟩
  | cons q qs ih =>
    intro t k hG hq hnd
    obtain ⟨hi, hrow⟩ := hq q (List.mem_cons_self q qs)
    obtain ⟨n, hn⟩ := hG (pyRow t q)
    obtain ⟨hG2, m, hm, -⟩ := infectRound_count hw draws q t k n hG hi hrow hn
    have hlen : (infectRound hw draws q t k).1.length = t.length :=
      infectRound_length hw draws q t k
    have hpy : ∀ p : ℚ, pyRow (infectRound hw draws q t k).1 p = pyRow t p :=
      fun p => pyRow_congr _ _ p hlen
    have hfr : ∀ j, j ≠ pyRow t q →
        getCell (infectRound hw draws q t k).1 j 12 = getCell t j 12 :=
      fun j hj => infectRound_frame hw draws q t k (by omega) (Or.inl hj)
    obtain ⟨ihG, ihB⟩ := ih (infectRound hw draws q t k).1 (infectRound hw draws q t k).2.1
      hG2
      (by
        intro p hp
        obtain ⟨h1, h2⟩ := hq p (List.mem_cons_of_mem q hp)
        refine ⟨?_, ?_⟩
        · rw [hpy, hlen]; exact h1
        · rw [hpy, infectRound_rowLen hw draws q t k]
          exact h2)
      (by
        have hmapEq : (qs.map fun p => pyRow (infectRound hw draws q t k).1 p)
            = qs.map fun p => pyRow t p := List.map_congr_left fun p _ => hpy p
        rw [hmapEq]
        exact (List.nodup_cons.mp hnd).2)
    refine ⟨ihG, ?_⟩
    intro e he
    rcases List.mem_cons.mp he with rfl | he'
    · dsimp only
      rw [hn]
      exact_mod_cast Nat.le.intro hm
    · have hmem : e.infId ∈ qs := by
        have hmap := infectOuter_map_infId hw draws qs
          (infectRound hw draws q t k).1 (infectRound hw draws q t k).2.1
        rw [← hmap]
        exact List.mem_map_of_mem Event.infId he'
      have hne : pyRow t e.infId ≠ pyRow t q := by
        intro hEq
        have hcontra : pyRow t q ∈ qs.map fun p => pyRow t p := by
          rw [← hEq]
          exact List.mem_map_of_mem _ hmem
        exact (List.nodup_cons.mp hnd).1 hcontra
      have hB := ihB e he'
      rw [hpy, hfr _ hne] at hB
      exact hB

lemma posIds_row (t : Table) (hpos : PosIds t) {r : Row} (hr : r ∈ t) :
    pyRow t (r.getD 0 0) < t.length ∧ t.getD (pyRow t (r.getD 0 0)) [] = r := by
  obtain ⟨k, hk, hkr⟩ := List.getElem_of_mem hr
  have hid : getCell t k 0 = r.getD 0 0 := by
    unfold getCell
    rw [List.getD_eq_getElem _ _ hk, hkr]
  have hq : r.getD 0 0 = (k : ℚ) := by
    rw [← hid]
    exact hpos k hk
  rw [hq, pyRow_natCast]
  exact ⟨hk, by rw [List.getD_eq_getElem _ _ hk, hkr]⟩

lemma posIds_unique (t : Table) (hpos : PosIds t) {k : Nat} (hk : k < t.length)
    {q : ℚ} (hq : getCell t k 0 = q) : k = pyRow t q := by
  have hkq : (k : ℚ) = q := by rw [← hq]; exact (hpos k hk).symm
  rw [← hkq, pyRow_natCast]

lemma posIds_map_range (t : Table) (hpos : PosIds t) :
    t.map (fun r => pyRow t (r.getD 0 0)) = List.range t.length := by
  apply List.ext_getElem (by simp)
  intro n h1 h2
  simp only [List.getElem_map, List.getElem_range]
  have hn : n < t.length := by simpa using h1
  have hid : t[n].getD 0 0 = (n : ℚ) := by
    have := hpos n hn
    unfold getCell at this
    rwa [List.getD_eq_getElem _ _ hn] at this
  rw [hid, pyRow_natCast]

lemma posIds_infectedIds_nodup (t : Table) (hpos : PosIds t) :
    ((infectedIds t).map fun q => pyRow t q).Nodup := by
  have hEq : (infectedIds t).map (fun q => pyRow t q)
      = (t.filter fun r => decide (r.getD 9 0 = 1)).map fun r => pyRow t (r.getD 0 0) := by
    unfold infectedIds
    rw [List.map_map]
    rfl
  rw [hEq]
  have hsub :
      ((t.filter fun r => decide (r.getD 9 0 = 1)).map
          fun r => pyRow t (r.getD 0 0)).Sublist
        (t.map fun r => pyRow t (r.getD 0 0)) :=
    (List.filter_sublist t).map _
  exact hsub.nodup (by rw [posIds_map_range t hpos]; exact List.nodup_range t.length)

lemma clampTruncate_eq_natCast (g : ℚ) : ∃ n : ℕ, clampTruncate g = (n : ℚ) := by
  refine ⟨(pyInt (if g < 0 then 0 else g)).toNat, ?_⟩
  unfold clampTruncate
  have h : 0 ≤ pyInt (if g < 0 then 0 else g) := by
    apply pyInt_nonneg
    split
    · exact le_refl 0
    · exact le_of_not_lt ‹_›
  exact_mod_cast congrArg (fun z : ℤ => (z : ℚ)) (Int.toNat_of_nonneg h).symm

lemma WF_rowLen (t : Table) (hwf : WF t) {k : Nat} (hk : k < t.length) :
    (t.getD k []).length = 16 := by
  rw [List.getD_eq_getElem _ _ hk]
  exact hwf _ (List.getElem_mem hk)

lemma WF_zeroPopulation (n : ℕ) : WF (zeroPopulation n) := by
  intro r hr
  rw [List.eq_of_mem_replicate hr]
  rfl

lemma length_zeroPopulation (n : ℕ) : (zeroPopulation n).length = n :=
  List.length_replicate n _

lemma getD_map_q (f : ℚ → ℚ) (l : List ℚ) (k : Nat) (hk : k < l.length) :
    (l.map f).getD k 0 = f (l.getD k 0) := by
  rw [List.getD_eq_getElem _ _ (by simpa using hk), List.getElem_map,
    List.getD_eq_getElem _ _ hk]

lemma getD_map_range (f : ℕ → ℚ) (n k : Nat) (hk : k < n) :
    ((List.range n).map f).getD k 0 = f k := by
  rw [List.getD_eq_getElem _ _ (by simpa using hk), List.getElem_map, List.getElem_range]

lemma mem_get_all_infected (s : Table) (r : Row) :
    r ∈ get_all_infected s ↔ r ∈ s ∧ r.getD 9 0 = 1 := by
  simp [get_all_infected, List.mem_filter]

lemma mem_get_all_healthy (s : Table) (r : Row) :
    r ∈ get_all_healthy s ↔ r ∈ s ∧ r.getD 9 0 = 0 := by
  simp [get_all_healthy, List.mem_filter]

/-! ### Claim theorems -/

/-- Claim C2: for every well-formed population and length-matching data,
`set_current_state` and `set_at_destination` both write the data into
column 8 of the table and leave column 9 unchanged, while
`get_current_state`, `get_all_infected` and `get_all_healthy` read
column 9; consequently calling `set_current_state` never changes the value
returned by `get_current_state`. -/
theorem claim_C2 (t : Table) (d : List ℚ) (hwf : WF t) (hlen : d.length = t.length) :
    ∃ t', set_current_state t d = some t' ∧ set_at_destination t d = some t' ∧
      (∀ k, k < t.length → getCell t' k 8 = d.getD k 0) ∧
      (∀ k, getCell t' k 9 = getCell t k 9) ∧
      get_current_state t' = get_current_state t ∧
      (∀ r : Row, r ∈ get_all_infected t' ↔ r ∈ t' ∧ r.getD 9 0 = 1) ∧
      (∀ r : Row, r ∈ get_all_healthy t' ↔ r ∈ t' ∧ r.getD 9 0 = 0) := by
  refine ⟨List.zipWith (fun r v => r.set 8 v) t d, ?_, ?_, ?_, ?_, ?_, ?_, ?_⟩
  · unfold set_current_state npSetColumn
    rw [if_pos hlen]
  · unfold set_at_destination npSetColumn
    rw [if_pos hlen]
  · intro k hk
    exact getCell_zipWith_col_self t d k hlen hk (by rw [WF_rowLen t hwf hk]; omega)
  · intro k
    exact getCell_zipWith_col_ne t d k hlen (by omega)
  · apply List.ext_getElem
    · simp [get_current_state, length_zipWith_col 8 t d hlen]
    · intro n h1 h2
      have hn : n < t.length := by simpa [get_current_state] using h2
      simp only [get_current_state, List.getElem_map]
      have hcell := getCell_zipWith_col_ne t d n hlen (show (9 : ℕ) ≠ 8 by omega)
      unfold getCell at hcell
      rw [← List.getD_eq_getElem t [] hn,
        ← List.getD_eq_getElem (List.zipWith (fun r v => r.set 8 v) t d) []
          (by rw [length_zipWith_col 8 t d hlen]; exact hn)]
      exact hcell
  · exact fun r => mem_get_all_infected _ r
  · exact fun r => mem_get_all_healthy _ r

/-- Witness for claim C2 at a concrete population of size 2 and data
`[1, 1]`. -/
theorem claim_C2_witness :
    WF (zeroPopulation 2) ∧ ([1, 1] : List ℚ).length = (zeroPopulation 2).length ∧
    (∃ t', set_current_state (zeroPopulation 2) [1, 1] = some t' ∧
      set_at_destination (zeroPopulation 2) [1, 1] = some t' ∧
      (∀ k, k < (zeroPopulation 2).length →
        getCell t' k 8 = ([1, 1] : List ℚ).getD k 0) ∧
      (∀ k, getCell t' k 9 = getCell (zeroPopulation 2) k 9) ∧
      get_current_state t' = get_current_state (zeroPopulation 2) ∧
      (∀ r : Row, r ∈ get_all_infected t' ↔ r ∈ t' ∧ r.getD 9 0 = 1) ∧
      (∀ r : Row, r ∈ get_all_healthy t' ↔ r ∈ t' ∧ r.getD 9 0 = 0)) :=
  ⟨WF_zeroPopulation 2, rfl,
    claim_C2 (zeroPopulation 2) [1, 1] (WF_zeroPopulation 2) rfl⟩

/-- Claim C3 (code bug): the setter/getter round trip fails for
current_state on a size-1 population—`set_current_state([1])` followed by
`get_current_state()` returns `[0]`, not `[1]`, because the setter writes
column 8 while the getter reads column 9—whereas the round trip does hold
for x_axis, y_axis and active. -/
theorem claim_C3_bug :
    set_current_state (zeroPopulation 1) [1]
        = some [[0, 0, 0, 0, 0, 0, 0, 0, 1, 0, 0, 0, 0, 0, 0, 0]] ∧
    get_current_state [[0, 0, 0, 0, 0, 0, 0, 0, 1, 0, 0, 0, 0, 0, 0, 0]] = [0] ∧
    ([0] : List ℚ) ≠ [1] ∧
    set_x_axis (zeroPopulation 1) [1]
        = some [[0, 0, 1, 0, 0, 0, 0, 0, 0, 0, 0, 0, 0, 0, 0, 0]] ∧
    get_x_axis [[0, 0, 1, 0, 0, 0, 0, 0, 0, 0, 0, 0, 0, 0, 0, 0]] = [1] ∧
    set_y_axis (zeroPopulation 1) [1]
        = some [[0, 0, 0, 1, 0, 0, 0, 0, 0, 0, 0, 0, 0, 0, 0, 0]] ∧
    get_y_axis [[0, 0, 0, 1, 0, 0, 0, 0, 0, 0, 0, 0, 0, 0, 0, 0]] = [1] ∧
    set_active (zeroPopulation 1) [1]
        = some [[0, 0, 0, 0, 0, 0, 0, 1, 0, 0, 0, 0, 0, 0, 0, 0]] ∧
    get_currently_active_info [[0, 0, 0, 0, 0, 0, 0, 1, 0, 0, 0, 0, 0, 0, 0, 0]] = [1] :=
  ⟨rfl, rfl, by simp, rfl, rfl, rfl, rfl, rfl, rfl⟩

/-- Claim C4: `find_nearby` returns the id-column (column 0) value of
exactly those rows whose x coordinate lies strictly between the x bounds,
whose y coordinate lies strictly between the y bounds, and whose
disease-state column (column 9) equals 0; rows with any other disease state
are never returned regardless of position. -/
theorem claim_C4 (t : Table) (xb yb : ℚ × ℚ) (q : ℚ) :
    q ∈ find_nearby t xb yb ↔
      ∃ r ∈ t, (xb.1 < r.getD 2 0 ∧ r.getD 2 0 < xb.2 ∧
        yb.1 < r.getD 3 0 ∧ r.getD 3 0 < yb.2 ∧ r.getD 9 0 = 0) ∧ r.getD 0 0 = q :=
  mem_find_nearby t xb yb q

/-- Claim C8: `initialize_susceptibility` stores
`((100 − mask_effectiveness) / 100) × 0.1` into column 13 of every
individual, reading mask_effectiveness from column 15; in particular
mask_effectiveness 90 yields susceptibility 0.01 and mask_effectiveness 0
yields 0.1; no other column is modified. -/
theorem claim_C8 (t : Table) (hwf : WF t) :
    (∀ k, k < t.length →
      getCell (initialize_susceptibility t) k 13 = (100 - getCell t k 15) / 100 * 0.1 ∧
      (getCell t k 15 = 90 → getCell (initialize_susceptibility t) k 13 = 0.01) ∧
      (getCell t k 15 = 0 → getCell (initialize_susceptibility t) k 13 = 0.1)) ∧
    (∀ k c, c ≠ 13 → getCell (initialize_susceptibility t) k c = getCell t k c) ∧
    (initialize_susceptibility t).length = t.length := by
  have hrow : ∀ k, k < t.length →
      (initialize_susceptibility t).getD k []
        = (t.getD k []).set 13 ((100 - (t.getD k []).getD 15 0) / 100 * 0.1) := by
    intro k hk
    exact getRow_map _ t k hk
  refine ⟨?_, ?_, by simp [initialize_susceptibility]⟩
  · intro k hk
    have hval : getCell (initialize_susceptibility t) k 13
        = (100 - getCell t k 15) / 100 * 0.1 := by
      unfold getCell
      rw [hrow k hk, row_getD_set_self _ _ _ (by rw [WF_rowLen t hwf hk]; omega)]
    refine ⟨hval, ?_, ?_⟩
    · intro h90
      rw [hval, h90]
      norm_num
    · intro h0
      rw [hval, h0]
      norm_num
  · intro k c hc
    unfold getCell
    by_cases hk : k < t.length
    · rw [hrow k hk, row_getD_set_ne _ _ _ _ (Ne.symm hc)]
    · have h1 : (initialize_susceptibility t).getD k [] = ([] : Row) :=
        List.getD_eq_default _ _ (by
          simp only [initialize_susceptibility, List.length_map]
          exact Nat.le_of_not_lt hk)
      have h2 : t.getD k [] = ([] : Row) :=
        List.getD_eq_default _ _ (Nat.le_of_not_lt hk)
      rw [h1, h2]

/-- Witness for claim C8: on `tC8w`, the individual with mask 90 gets
susceptibility 0.01 and the one with mask 0 gets 0.1. -/
theorem claim_C8_witness :
    WF tC8w ∧
    (getCell tC8w 0 15 = 90 ∧ getCell (initialize_susceptibility tC8w) 0 13 = 0.01) ∧
    (getCell tC8w 1 15 = 0 ∧ getCell (initialize_susceptibility tC8w) 1 13 = 0.1) := by
  have hwf : WF tC8w := by
    intro r hr
    simp only [tC8w, List.mem_cons, List.not_mem_nil, or_false] at hr
    rcases hr with rfl | rfl <;> rfl
  have h := claim_C8 tC8w hwf
  exact ⟨hwf,
    ⟨rfl, (h.1 0 (by decide)).2.1 rfl⟩,
    ⟨rfl, (h.1 1 (by decide)).2.2 rfl⟩⟩

/-- Claim C10 (amended): no setter validates length; a data sequence whose
length differs from the population size and is not 1 fails with a shape
(broadcast) error at the point of assignment, leaving the table unchanged;
a length-1 sequence, however, is broadcast by NumPy, assigning its single
element to every row. -/
theorem claim_C10_amended (t : Table) (d : List ℚ) (c : Nat) :
    (d.length ≠ t.length → d.length ≠ 1 → npSetColumn t c d = none) ∧
    (d.length = 1 → ∃ t', npSetColumn t c d = some t' ∧
      ∀ k, k < t.length → c < (t.getD k []).length → getCell t' k c = d.getD 0 0) ∧
    set_age t d = npSetColumn t 1 d := by
  refine ⟨?_, ?_, rfl⟩
  · intro h1 h2
    unfold npSetColumn
    rw [if_neg h1, if_neg h2]
  · intro h1
    by_cases heq : d.length = t.length
    · refine ⟨_, by unfold npSetColumn; rw [if_pos heq], ?_⟩
      intro k hk hc
      rw [getCell_zipWith_col_self t d k heq hk hc]
      have hk0 : k = 0 := by omega
      rw [hk0]
    · refine ⟨_, by unfold npSetColumn; rw [if_neg heq, if_pos h1], ?_⟩
      intro k hk hc
      unfold getCell
      rw [getRow_map _ t k hk, row_getD_set_self _ _ _ hc]

/-- Witness for claim C10 (amended): on a size-2 population, length-3 data
raises the shape error while length-1 data is broadcast. -/
theorem claim_C10_witness :
    (([1, 2, 3] : List ℚ).length ≠ (zeroPopulation 2).length ∧
      ([1, 2, 3] : List ℚ).length ≠ 1 ∧
      npSetColumn (zeroPopulation 2) 6 [1, 2, 3] = none) ∧
    (([7] : List ℚ).length = 1 ∧
      ∃ t', npSetColumn (zeroPopulation 2) 6 [7] = some t' ∧
        ∀ k, k < (zeroPopulation 2).length →
          6 < ((zeroPopulation 2).getD k []).length →
          getCell t' k 6 = ([7] : List ℚ).getD 0 0) :=
  ⟨⟨by decide, by decide,
      (claim_C10_amended (zeroPopulation 2) [1, 2, 3] 6).1 (by decide) (by decide)⟩,
    rfl, (claim_C10_amended (zeroPopulation 2) [7] 6).2.1 rfl⟩

/-- Counterexample to claim C10 as stated: passing a length-1 sequence to a
setter of a size-2 population does not fail—NumPy broadcasts it to every
row. -/
theorem claim_C10_counterexample :
    set_age (zeroPopulation 2) [5] =
      some [[0, 5, 0, 0, 0, 0, 0, 0, 0, 0, 0, 0, 0, 0, 0, 0],
            [0, 5, 0, 0, 0, 0, 0, 0, 0, 0, 0, 0, 0, 0, 0, 0]] := rfl

/-- Claim C1: for valid rows `i` (infector) and `j` (candidate) of a
well-formed population, one candidate step of `infect` sets `j`'s
disease-state column 9 to 1 and decrements `i`'s g_value by exactly 1 if
and only if the uniform draw is strictly below 0.06 and `i`'s g_value is
strictly positive; when either condition fails the table is unchanged. -/
theorem claim_C1 (t : Table) (i j : Nat) (chance : ℚ) (hwf : WF t)
    (hi : i < t.length) (hj : j < t.length) :
    ((getCell (infectStep t i j chance) j 9 = 1 ∧
      getCell (infectStep t i j chance) i 12 = getCell t i 12 - 1) ↔
      (chance < 0.06 ∧ 0 < getCell t i 12)) ∧
    (¬(chance < 0.06 ∧ 0 < getCell t i 12) → infectStep t i j chance = t) := by
  constructor
  · constructor
    · rintro ⟨-, h12⟩
      by_contra hnc
      rw [infectStep_neg t i j chance hnc] at h12
      linarith
    · intro hc
      rw [infectStep_pos t i j chance hc]
      constructor
      · rw [getCell_setg_9]
        exact getCell_setCell_self t 1 hj (by rw [WF_rowLen t hwf hj]; omega)
      · rw [getCell_setCell_self _ _ (by rw [length_setCell]; exact hi)
          (by rw [rowLen_setCell, WF_rowLen t hwf hi]; decide)]
        rw [getCell_mark_g]
  · exact infectStep_neg t i j chance

/-- Witness for claim C1 on `tC1w` with infector row 0, candidate row 1 and
draw 0. -/
theorem claim_C1_witness :
    WF tC1w ∧ 0 < tC1w.length ∧ 1 < tC1w.length ∧
    (((getCell (infectStep tC1w 0 1 0) 1 9 = 1 ∧
      getCell (infectStep tC1w 0 1 0) 0 12 = getCell tC1w 0 12 - 1) ↔
      ((0 : ℚ) < 0.06 ∧ 0 < getCell tC1w 0 12)) ∧
    (¬((0 : ℚ) < 0.06 ∧ 0 < getCell tC1w 0 12) → infectStep tC1w 0 1 0 = tC1w)) := by
  have hwf : WF tC1w := by
    intro r hr
    simp only [tC1w, List.mem_cons, List.not_mem_nil, or_false] at hr
    rcases hr with rfl | rfl <;> rfl
  exact ⟨hwf, by decide, by decide, claim_C1 tC1w 0 1 0 hwf (by decide) (by decide)⟩

/-- Claim C9: `initialize_g_value` clamps every sample below zero to
exactly 0 before truncating all samples to integers and storing them via
the g_value setter (column 12); consequently every stored g_value is a
non-negative integer. -/
theorem claim_C9 (t : Table) (gs : List ℚ) (hwf : WF t) (hlen : gs.length = t.length) :
    ∃ t', initialize_g_value t gs = some t' ∧
      (∀ k, k < t.length →
        getCell t' k 12 = clampTruncate (gs.getD k 0) ∧
        ∃ n : ℕ, getCell t' k 12 = (n : ℚ)) ∧
      (∀ k c, c ≠ 12 → getCell t' k c = getCell t k c) := by
  have hlen2 : (gs.map clampTruncate).length = t.length := by
    rw [List.length_map]
    exact hlen
  refine ⟨List.zipWith (fun r v => r.set 12 v) t (gs.map clampTruncate), ?_, ?_, ?_⟩
  · unfold initialize_g_value set_g_value npSetColumn
    rw [if_pos hlen2]
  · intro k hk
    have hval : getCell (List.zipWith (fun r v => r.set 12 v) t (gs.map clampTruncate)) k 12
        = clampTruncate (gs.getD k 0) := by
      rw [getCell_zipWith_col_self t (gs.map clampTruncate) k hlen2 hk
        (by rw [WF_rowLen t hwf hk]; omega)]
      exact getD_map_q clampTruncate gs k (by rw [hlen]; exact hk)
    exact ⟨hval, hval ▸ clampTruncate_eq_natCast (gs.getD k 0)⟩
  · intro k c hc
    exact getCell_zipWith_col_ne t (gs.map clampTruncate) k hlen2 hc

/-- Witness for claim C9 on a size-2 population with samples
`[-0.5, 1.5]`. -/
theorem claim_C9_witness :
    WF (zeroPopulation 2) ∧ ([-0.5, 1.5] : List ℚ).length = (zeroPopulation 2).length ∧
    (∃ t', initialize_g_value (zeroPopulation 2) [-0.5, 1.5] = some t' ∧
      (∀ k, k < (zeroPopulation 2).length →
        getCell t' k 12 = clampTruncate (([-0.5, 1.5] : List ℚ).getD k 0) ∧
        ∃ n : ℕ, getCell t' k 12 = (n : ℚ)) ∧
      (∀ k c, c ≠ 12 → getCell t' k c = getCell (zeroPopulation 2) k c)) :=
  ⟨WF_zeroPopulation 2, rfl,
    claim_C9 (zeroPopulation 2) [-0.5, 1.5] (WF_zeroPopulation 2) rfl⟩

/-- Claim C5 (amended): for every well-formed population whose ids equal
their row positions and whose g_values are all natural numbers, and for
every half-width and sequence of random draws, no g_value is ever
decremented below 0 by `infect`; the number of individuals newly infected
by an infector never exceeds that infector's g_value at the start of the
call, and in particular an infector whose g_value is 0 at the start causes
no infection. -/
theorem claim_C5_amended (t : Table) (hw : ℚ) (draws : ℕ → ℚ)
    (hwf : WF t) (hpos : PosIds t) (hG : GNat t) :
    (∀ k, 0 ≤ getCell (infect t hw draws) k 12) ∧
    ∀ e ∈ infectTrace t hw draws,
      (e.succs : ℚ) ≤ getCell t (pyRow t e.infId) 12 ∧
      (getCell t (pyRow t e.infId) 12 = 0 → e.succs = 0) := by
  have hlt : ∀ q ∈ infectedIds t,
      pyRow t q < t.length ∧ 12 < (t.getD (pyRow t q) []).length := by
    intro q hq
    obtain ⟨r, hr, h9, hid⟩ := (mem_infectedIds t q).mp hq
    obtain ⟨h1, h2⟩ := posIds_row t hpos hr
    rw [hid] at h1 h2
    refine ⟨h1, ?_⟩
    rw [h2, hwf r hr]
    omega
  obtain ⟨hGf, hB⟩ := infectOuter_count hw draws (infectedIds t) t 0 hG hlt
    (posIds_infectedIds_nodup t hpos)
  constructor
  · intro k
    obtain ⟨n, hn⟩ := hGf k
    have hcast : getCell (infect t hw draws) k 12 = (n : ℚ) := hn
    rw [hcast]
    exact Nat.cast_nonneg n
  · intro e he
    have h1 := hB e he
    refine ⟨h1, fun h0 => ?_⟩
    rw [h0] at h1
    exact_mod_cast le_antisymm h1 (Nat.cast_nonneg e.succs)

/-- Witness for claim C5 (amended) on `tC5w` with half-width 1 and all
draws 0. -/
theorem claim_C5_witness :
    (WF tC5w ∧ PosIds tC5w ∧ GNat tC5w) ∧
    ((∀ k, 0 ≤ getCell (infect tC5w 1 (fun _ => 0)) k 12) ∧
      ∀ e ∈ infectTrace tC5w 1 (fun _ => 0),
        (e.succs : ℚ) ≤ getCell tC5w (pyRow tC5w e.infId) 12 ∧
        (getCell tC5w (pyRow tC5w e.infId) 12 = 0 → e.succs = 0)) := by
  have hwf : WF tC5w := by
    intro r hr
    simp only [tC5w, List.mem_cons, List.not_mem_nil, or_false] at hr
    rcases hr with rfl | rfl <;> rfl
  have hpos : PosIds tC5w := by
    intro k hk
    have hk2 : k < 2 := hk
    interval_cases k <;> norm_num [getCell, tC5w]
  have hG : GNat tC5w := by
    intro r
    match r with
    | 0 => exact ⟨1, by norm_num [getCell, tC5w]⟩
    | 1 => exact ⟨0, by norm_num [getCell, tC5w]⟩
    | (n + 2) => exact ⟨0, by norm_num [getCell, tC5w]⟩
  exact ⟨⟨hwf, hpos, hG⟩, claim_C5_amended tC5w 1 (fun _ => 0) hwf hpos hG⟩

/-- Counterexample to claim C5 as stated: on `tC5ce` (infector g_value 0.5,
accepted silently by the setter), one call to `infect` with draw 0 drives
the infector's g_value to −0.5, strictly below 0. -/
theorem claim_C5_counterexample :
    getCell (infect tC5ce 1 (fun _ => 0)) 0 12 = -0.5 ∧
    getCell (infect tC5ce 1 (fun _ => 0)) 0 12 < 0 := by
  have h : getCell (infect tC5ce 1 (fun _ => 0)) 0 12 = -0.5 := by
    norm_num [infect, infectOuter, infectRound, infectInner, infectStep, infectedIds,
      infectCands, infectBounds, find_nearby, getCell, setCell, pyRow, pyInt, tC5ce,
      List.filter]
  exact ⟨h, by rw [h]; norm_num⟩

/-- Claim C6: `infect` addresses rows by the value in the id column: under
the precondition that every id equals its row position (never checked by
`infect`, and established by `initialize_id(0, N)` on a fresh population),
the row addressed for an infector id is the infector's own (infected) row
and is the unique row bearing that id, and the row addressed for each
candidate id returned by `find_nearby` is exactly the healthy, in-bounds
row that produced it. -/
theorem claim_C6 (t : Table) (hpos : PosIds t) :
    (∀ q ∈ infectedIds t,
      pyRow t q < t.length ∧ getCell t (pyRow t q) 0 = q ∧
      getCell t (pyRow t q) 9 = 1 ∧
      ∀ k, k < t.length → getCell t k 0 = q → k = pyRow t q) ∧
    (∀ xb yb : ℚ × ℚ, ∀ c ∈ find_nearby t xb yb,
      pyRow t c < t.length ∧ getCell t (pyRow t c) 0 = c ∧
      getCell t (pyRow t c) 9 = 0 ∧
      xb.1 < getCell t (pyRow t c) 2 ∧ getCell t (pyRow t c) 2 < xb.2 ∧
      yb.1 < getCell t (pyRow t c) 3 ∧ getCell t (pyRow t c) 3 < yb.2) ∧
    (∀ N : ℕ, ∃ t₀, initialize_id (zeroPopulation N) 0 N = some t₀ ∧ PosIds t₀) := by
  refine ⟨?_, ?_, ?_⟩
  · intro q hq
    obtain ⟨r, hr, h9, hid⟩ := (mem_infectedIds t q).mp hq
    obtain ⟨h1, h2⟩ := posIds_row t hpos hr
    rw [hid] at h1 h2
    have hcell : ∀ cc : Nat, getCell t (pyRow t q) cc = r.getD cc 0 := by
      intro cc
      unfold getCell
      rw [h2]
    refine ⟨h1, by rw [hcell 0]; exact hid, by rw [hcell 9]; exact h9, ?_⟩
    intro k hk hk0
    exact posIds_unique t hpos hk hk0
  · intro xb yb c hc
    obtain ⟨r, hr, ⟨hx1, hx2, hy1, hy2, h9⟩, hid⟩ := (mem_find_nearby t xb yb c).mp hc
    obtain ⟨h1, h2⟩ := posIds_row t hpos hr
    rw [hid] at h1 h2
    have hcell : ∀ cc : Nat, getCell t (pyRow t c) cc = r.getD cc 0 := by
      intro cc
      unfold getCell
      rw [h2]
    exact ⟨h1, by rw [hcell 0]; exact hid, by rw [hcell 9]; exact h9,
      by rw [hcell 2]; exact hx1, by rw [hcell 2]; exact hx2,
      by rw [hcell 3]; exact hy1, by rw [hcell 3]; exact hy2⟩
  · intro N
    have hlen : (idRange 0 N).length = (zeroPopulation N).length := by
      simp [idRange, zeroPopulation]
    refine ⟨_, by unfold initialize_id npSetColumn; rw [if_pos hlen], ?_⟩
    intro k hk
    have hkN : k < N := by
      rwa [length_zipWith_col 0 _ _ hlen, length_zeroPopulation] at hk
    rw [getCell_zipWith_col_self (zeroPopulation N) (idRange 0 N) k hlen
      (by rw [length_zeroPopulation]; exact hkN)
      (by rw [WF_rowLen (zeroPopulation N) (WF_zeroPopulation N)
          (by rw [length_zeroPopulation]; exact hkN)]; omega)]
    unfold idRange
    have hNN : ((N : ℤ) - 0).toNat = N := by simp
    rw [hNN, getD_map_range _ N k hkN]
    push_cast
    ring

/-- Witness for claim C6 on `tC6w`, whose ids equal their row positions. -/
theorem claim_C6_witness :
    PosIds tC6w ∧
    ((∀ q ∈ infectedIds tC6w,
      pyRow tC6w q < tC6w.length ∧ getCell tC6w (pyRow tC6w q) 0 = q ∧
      getCell tC6w (pyRow tC6w q) 9 = 1 ∧
      ∀ k, k < tC6w.length → getCell tC6w k 0 = q → k = pyRow tC6w q) ∧
    (∀ xb yb : ℚ × ℚ, ∀ c ∈ find_nearby tC6w xb yb,
      pyRow tC6w c < tC6w.length ∧ getCell tC6w (pyRow tC6w c) 0 = c ∧
      getCell tC6w (pyRow tC6w c) 9 = 0 ∧
      xb.1 < getCell tC6w (pyRow tC6w c) 2 ∧ getCell tC6w (pyRow tC6w c) 2 < xb.2 ∧
      yb.1 < getCell tC6w (pyRow tC6w c) 3 ∧ getCell tC6w (pyRow tC6w c) 3 < yb.2) ∧
    (∀ N : ℕ, ∃ t₀, initialize_id (zeroPopulation N) 0 N = some t₀ ∧ PosIds t₀)) := by
  have hpos : PosIds tC6w := by
    intro k hk
    have hk2 : k < 2 := hk
    interval_cases k <;> norm_num [getCell, tC6w]
  exact ⟨hpos, claim_C6 tC6w hpos⟩

/-- Claim C7: within one call to `infect` the set of infectors is the
snapshot of individuals infected when the call began (every processed
infector id is the id of a row that was infected at call start), every
candidate is drawn from a row that is healthy in the live table at
selection time, and infection marks are monotone—once column 9 is 1 it
stays 1 through every later query state and the final table, so an
infected row is never again a source of candidates. -/
theorem claim_C7 (t : Table) (hw : ℚ) (draws : ℕ → ℚ) :
    (∀ e ∈ infectTrace t hw draws, ∃ r ∈ t, r.getD 9 0 = 1 ∧ r.getD 0 0 = e.infId) ∧
    (∀ e ∈ infectTrace t hw draws, ∀ c ∈ e.cands,
      ∃ r ∈ e.state, r.getD 9 0 = 0 ∧ r.getD 0 0 = c) ∧
    (∀ e ∈ infectTrace t hw draws,
      Reach t e.state ∧ Reach e.state (infect t hw draws)) ∧
    List.Pairwise (fun e e' => Reach e.state e'.state) (infectTrace t hw draws) := by
  obtain ⟨h1, h2, h3⟩ := infectOuter_trace hw draws (infectedIds t) t 0
  refine ⟨?_, ?_, ?_, h3⟩
  · intro e he
    have hmem : e.infId ∈ infectedIds t := by
      rw [← infectOuter_map_infId hw draws (infectedIds t) t 0]
      exact List.mem_map_of_mem Event.infId he
    exact (mem_infectedIds t e.infId).mp hmem
  · intro e he c hc
    obtain ⟨⟨xb, yb, hcands⟩, -, -⟩ := h2 e he
    rw [hcands] at hc
    obtain ⟨r, hr, hprops, hid⟩ := (mem_find_nearby e.state xb yb c).mp hc
    exact ⟨r, hr, hprops.2.2.2.2, hid⟩
  · intro e he
    exact ⟨(h2 e he).2.1, (h2 e he).2.2⟩

end VirusSim
